import Mathlib

/-!
Shallow embedding of `src/resale_flats.py` (class `ResaleFlats`).

A pandas `DataFrame` of resale transactions is modelled as a `List Row`.
The two dataframe handles of the Python object (`original_data` and `df`)
become the two fields of the `ResaleFlats` structure; every method that in
Python reassigns `self.df` becomes a pure function returning the new state.
Numeric columns (`resale_price`, `floor_area_sqm`, `price_per_sqm`) are
modelled as exact rationals; `pd.Timestamp` values are modelled as
year/month/day triples ordered by an injective integer key, mirroring the
integer timeline that `datetime64` values are compared on.
The HTTP fetch itself is outside the model: `fetch_data` takes the five
partition record lists (the parsed `result.records` bodies, after the
`pd.to_numeric` coercion of the two numeric columns) as input and performs
the concatenation and enrichment steps of the Python `fetch_data`.
-/

/-- Calendar date, standing for the `pd.Timestamp` values of the derived
`date` column and for the Python `datetime` filter bounds. -/
structure Date where
  year : Nat
  month : Nat
  day : Nat
deriving DecidableEq, Repr

/-- Position of a date on an integer timeline; injective on real dates
(month ≤ 12 < 13, day ≤ 31 < 32) and ordered chronologically, the way
`datetime64` values compare as integers. -/
def Date.key (d : Date) : Nat :=
  (d.year * 13 + d.month) * 32 + d.day

/-- Chronological comparison of dates, as a Bool (pandas `<=` on dates). -/
def Date.ble (a b : Date) : Bool :=
  decide (a.key ≤ b.key)

/-- Strict chronological comparison of dates. -/
def Date.blt (a b : Date) : Bool :=
  decide (a.key < b.key)

/-- The bound `datetime(MINYEAR, 1, 1)` substituted for an absent `start`. -/
def datetimeMin : Date := ⟨1, 1, 1⟩

/-- The bound `datetime(MAXYEAR, 12, 31)` substituted for an absent `end`. -/
def datetimeMax : Date := ⟨9999, 12, 31⟩

/-- A date that Python's `datetime` can represent: year in `[MINYEAR, MAXYEAR]`,
month in `[1, 12]`, day in `[1, 31]`. Every value the `date` column can hold
is of this shape. -/
def Date.Valid (d : Date) : Prop :=
  1 ≤ d.year ∧ d.year ≤ 9999 ∧ 1 ≤ d.month ∧ d.month ≤ 12 ∧ 1 ≤ d.day ∧ d.day ≤ 31

instance (d : Date) : Decidable d.Valid := by
  unfold Date.Valid; infer_instance

/-- One fetched record as it stands right after the `pd.to_numeric`
coercion of `resale_price` and `floor_area_sqm`: the two numeric columns
are rationals, everything else is still the fetched string. -/
structure RawRow where
  town : String
  flat_type : String
  flat_model : String
  floor_area_sqm : ℚ
  street_name : String
  resale_price : ℚ
  month : String
  remaining_lease : String
  lease_commence_date : String
  storey_range : String
  block : String
deriving DecidableEq, Repr

/-- One enriched record: the fetched columns plus the two derived columns
`price_per_sqm` and `date` that `fetch_data` appends. -/
structure Row where
  town : String
  flat_type : String
  flat_model : String
  floor_area_sqm : ℚ
  street_name : String
  resale_price : ℚ
  month : String
  remaining_lease : String
  lease_commence_date : String
  storey_range : String
  block : String
  price_per_sqm : ℚ
  date : Date
deriving DecidableEq, Repr

/-- Rounding to two decimal places, the `.round(2)` of the source. -/
def round2 (q : ℚ) : ℚ :=
  ((round (q * 100) : ℤ) : ℚ) / 100

/-- Digit accumulator for `digitsVal`. -/
def digitsValAux (acc : Nat) : List Char → Option Nat
  | [] => some acc
  | c :: cs => if c.isDigit then digitsValAux (acc * 10 + (c.toNat - 48)) cs else none

/-- Numeric value of a nonempty all-digit character list, `none` otherwise. -/
def digitsVal : List Char → Option Nat
  | [] => none
  | c :: cs => digitsValAux 0 (c :: cs)

/-- Split a character list at its first dash. -/
def splitDash : List Char → Option (List Char × List Char)
  | [] => none
  | c :: cs =>
    if c = '-' then some ([], cs)
    else
      match splitDash cs with
      | some (l, r) => some (c :: l, r)
      | none => none

/-- The `pd.to_datetime` step applied to one `month` cell: parse a
year-month string of the form `"YYYY-MM"` into the first day of that
month, failing (as `pd.to_datetime` raises) on anything unparsable or
outside the representable year and month ranges. -/
def parseMonth (s : String) : Option Date :=
  match splitDash s.toList with
  | none => none
  | some (ys, ms) =>
    match digitsVal ys, digitsVal ms with
    | some y, some m =>
      if 1 ≤ y ∧ y ≤ 9999 ∧ 1 ≤ m ∧ m ≤ 12 then some ⟨y, m, 1⟩ else none
    | _, _ => none

/-- Enrichment of one record: copy every fetched column and append
`price_per_sqm = round(resale_price / floor_area_sqm, 2)` and
`date = to_datetime(month)`. -/
def Row.ofRaw (raw : RawRow) : Option Row :=
  match parseMonth raw.month with
  | none => none
  | some d => some
    { town := raw.town
      flat_type := raw.flat_type
      flat_model := raw.flat_model
      floor_area_sqm := raw.floor_area_sqm
      street_name := raw.street_name
      resale_price := raw.resale_price
      month := raw.month
      remaining_lease := raw.remaining_lease
      lease_commence_date := raw.lease_commence_date
      storey_range := raw.storey_range
      block := raw.block
      price_per_sqm := round2 (raw.resale_price / raw.floor_area_sqm)
      date := d }

/-- Enrich a list of records, failing when any one record fails. -/
def enrich : List RawRow → Option (List Row)
  | [] => some []
  | raw :: rest =>
    match Row.ofRaw raw, enrich rest with
    | some r, some rs => some (r :: rs)
    | _, _ => none

/-- The post-fetch part of `ResaleFlats.fetch_data`: concatenate the
fetched partition tables in declaration order (`pd.concat(dfs)`) and add
the derived columns. -/
def fetch_data (parts : List (List RawRow)) : Option (List Row) :=
  enrich parts.flatten

/-- The state of a `ResaleFlats` object: the snapshot handle
`original_data` and the working-view handle `df`. -/
structure ResaleFlats where
  original_data : List Row
  df : List Row
deriving DecidableEq, Repr

/-- `ResaleFlats.__init__`: fetch and build, then start the working view
at the snapshot (`self.df = self.original_data`). -/
def ResaleFlats.construct (parts : List (List RawRow)) : Option ResaleFlats :=
  match fetch_data parts with
  | none => none
  | some d => some ⟨d, d⟩

/-- `ResaleFlats.reset`: reassign the working view to the snapshot. -/
def ResaleFlats.reset (r : ResaleFlats) : ResaleFlats :=
  { r with df := r.original_data }

/-- First-occurrence deduplication with an accumulator of already-seen
values; `uniqueFO [] l` is pandas `Series.unique()` on `l`. -/
def uniqueFO (seen : List String) : List String → List String
  | [] => []
  | x :: xs => if seen.contains x then uniqueFO seen xs else x :: uniqueFO (x :: seen) xs

/-- `ResaleFlats.get_towns`: the distinct town values of the current
working view, in order of first appearance (`self.df["town"].unique()`). -/
def ResaleFlats.get_towns (r : ResaleFlats) : List String :=
  uniqueFO [] (r.df.map Row.town)

/-- `ResaleFlats.filter_by_town`: keep the working-view rows whose `town`
is a member of the given list (`self.df["town"].isin(towns)`), reassigning
the working view to the result. -/
def ResaleFlats.filter_by_town (r : ResaleFlats) (towns : List String) : ResaleFlats :=
  { r with df := r.df.filter (fun row => towns.contains row.town) }

/-- `ResaleFlats.filter_by_flat_type`: keep the working-view rows whose
`flat_type` is a member of the given list. -/
def ResaleFlats.filter_by_flat_type (r : ResaleFlats) (flat_types : List String) : ResaleFlats :=
  { r with df := r.df.filter (fun row => flat_types.contains row.flat_type) }

/-- The row predicate of `filter_by_time` after the two defaults have been
substituted: `(date >= start) & (date <= end)`. -/
def inTimeRange (s e : Date) (row : Row) : Bool :=
  Date.ble s row.date && Date.ble row.date e

/-- `ResaleFlats.filter_by_time`: substitute `datetime(MINYEAR, 1, 1)` for
an absent `start` and `datetime(MAXYEAR, 12, 31)` for an absent `end`,
then keep the working-view rows whose `date` lies in the closed range. -/
def ResaleFlats.filter_by_time (r : ResaleFlats) (start end_ : Option Date) : ResaleFlats :=
  let s := start.getD datetimeMin
  let e := end_.getD datetimeMax
  { r with df := r.df.filter (inTimeRange s e) }

/-- The rows that `ResaleFlats.show` renders: `self.df.head(n)`, which is
the Python slice `self.df[:n]` — the first `n` rows for `n ≥ 0`, and all
rows but the last `|n|` for negative `n`. -/
def ResaleFlats.show' (r : ResaleFlats) (n : Int) : List Row :=
  if 0 ≤ n then r.df.take n.toNat
  else r.df.take (r.df.length - (-n).toNat)

/-- One call on a `ResaleFlats` object, for reasoning about arbitrary
call sequences. -/
inductive Op where
  | town (ts : List String)
  | flat (fs : List String)
  | time (s e : Option Date)
  | reset
  | getTowns
  | disp (n : Int)
deriving Repr

/-- The state transition of one call: the three filters and `reset`
reassign `self.df`; `get_towns` and `show` read without writing. -/
def applyOp (r : ResaleFlats) : Op → ResaleFlats
  | .town ts => r.filter_by_town ts
  | .flat fs => r.filter_by_flat_type fs
  | .time s e => r.filter_by_time s e
  | .reset => r.reset
  | .getTowns => r
  | .disp _ => r

/-- The state after a sequence of calls. -/
def applyOps (r : ResaleFlats) (ops : List Op) : ResaleFlats :=
  ops.foldl applyOp r

/-- The working view is always a subsequence of the snapshot. -/
def GoodView (r : ResaleFlats) : Prop :=
  List.Sublist r.df r.original_data

/-! Concrete sample data used to exercise the theorems. -/

/-- A sample fetched record from the Bedok town. -/
def rawBedok : RawRow :=
  { town := "Bedok", flat_type := "4 ROOM", flat_model := "Model A",
    floor_area_sqm := 100, street_name := "Bedok North Road",
    resale_price := 400000, month := "2020-06", remaining_lease := "61 years",
    lease_commence_date := "1985", storey_range := "07 TO 09", block := "123" }

/-- A sample fetched record from the Tampines town. -/
def rawTampines : RawRow :=
  { town := "Tampines", flat_type := "5 ROOM", flat_model := "Improved",
    floor_area_sqm := 70, street_name := "Tampines St 21",
    resale_price := 350000, month := "2021-03", remaining_lease := "70 years",
    lease_commence_date := "1995", storey_range := "10 TO 12", block := "456" }

/-- Two sample partitions, one record each. -/
def partsW : List (List RawRow) := [[rawBedok], [rawTampines]]

/-- The enrichment of `rawBedok`. -/
def rowBedok : Row :=
  { town := "Bedok", flat_type := "4 ROOM", flat_model := "Model A",
    floor_area_sqm := 100, street_name := "Bedok North Road",
    resale_price := 400000, month := "2020-06", remaining_lease := "61 years",
    lease_commence_date := "1985", storey_range := "07 TO 09", block := "123",
    price_per_sqm := 4000, date := ⟨2020, 6, 1⟩ }

/-- The enrichment of `rawTampines`. -/
def rowTampines : Row :=
  { town := "Tampines", flat_type := "5 ROOM", flat_model := "Improved",
    floor_area_sqm := 70, street_name := "Tampines St 21",
    resale_price := 350000, month := "2021-03", remaining_lease := "70 years",
    lease_commence_date := "1995", storey_range := "10 TO 12", block := "456",
    price_per_sqm := 5000, date := ⟨2021, 3, 1⟩ }

/-- The object constructed from the two sample partitions. -/
def flatsW : ResaleFlats := ⟨[rowBedok, rowTampines], [rowBedok, rowTampines]⟩

/-! Helper lemmas shared by the claim theorems. -/

/-- pandas `isin` membership test agrees with list membership. -/
theorem contains_eq_decide_mem (l : List String) (a : String) :
    l.contains a = decide (a ∈ l) := by
  simp [List.elem_iff, List.contains]

/-- No call changes the snapshot handle. -/
theorem applyOp_original_data (r : ResaleFlats) (o : Op) :
    (applyOp r o).original_data = r.original_data := by
  cases o <;> rfl

/-- No call sequence changes the snapshot handle. -/
theorem applyOps_original_data (r : ResaleFlats) (ops : List Op) :
    (applyOps r ops).original_data = r.original_data := by
  induction ops generalizing r with
  | nil => rfl
  | cons o os ih => exact (ih (applyOp r o)).trans (applyOp_original_data r o)

/-- Each call preserves the working-view-is-a-subsequence invariant. -/
theorem applyOp_goodView (r : ResaleFlats) (o : Op) (h : GoodView r) :
    GoodView (applyOp r o) := by
  cases o with
  | town ts => exact (List.filter_sublist r.df).trans h
  | flat fs => exact (List.filter_sublist r.df).trans h
  | time s e => exact (List.filter_sublist r.df).trans h
  | reset => exact List.Sublist.refl _
  | getTowns => exact h
  | disp n => exact h

/-- Call sequences preserve the working-view-is-a-subsequence invariant. -/
theorem applyOps_goodView (r : ResaleFlats) (ops : List Op) (h : GoodView r) :
    GoodView (applyOps r ops) := by
  induction ops generalizing r with
  | nil => exact h
  | cons o os ih => exact ih (applyOp r o) (applyOp_goodView r o h)

/-- Two successive filters of a list commute. -/
theorem filter_comm (p q : Row → Bool) (l : List Row) :
    (l.filter p).filter q = (l.filter q).filter p := by
  rw [List.filter_filter, List.filter_filter]
  congr 1
  funext a
  rw [Bool.and_comm]

/-- Two successive filters equal one filter by the conjoined predicate. -/
theorem filter_filter_and (p q : Row → Bool) (l : List Row) :
    (l.filter p).filter q = l.filter (fun a => p a && q a) := by
  rw [List.filter_filter]
  congr 1
  funext a
  rw [Bool.and_comm]

/-- Enrichment of one record copies the fetched columns and fills the two
derived columns from them. -/
theorem ofRaw_fields (raw : RawRow) (row : Row) (h : Row.ofRaw raw = some row) :
    row.price_per_sqm = round2 (row.resale_price / row.floor_area_sqm)
    ∧ parseMonth row.month = some row.date := by
  rw [Row.ofRaw] at h
  cases hp : parseMonth raw.month with
  | none => rw [hp] at h; exact absurd h (by simp)
  | some d =>
    rw [hp] at h
    have heq := Option.some.inj h
    subst heq
    exact ⟨rfl, hp⟩

/-- Every row that enrichment produces is the enrichment of some record. -/
theorem enrich_forall (l : List RawRow) (rows : List Row) (h : enrich l = some rows) :
    ∀ row ∈ rows, ∃ raw, Row.ofRaw raw = some row := by
  induction l generalizing rows with
  | nil =>
    rw [enrich] at h
    have heq := Option.some.inj h
    subst heq
    intro row hrow
    exact absurd hrow (by simp)
  | cons raw rest ih =>
    rw [enrich] at h
    cases h1 : Row.ofRaw raw with
    | none => rw [h1] at h; exact absurd h (by simp)
    | some r0 =>
      cases h2 : enrich rest with
      | none => rw [h1, h2] at h; exact absurd h (by simp)
      | some rs =>
        rw [h1, h2] at h
        have heq := Option.some.inj h
        subst heq
        intro row hrow
        rcases List.mem_cons.mp hrow with hr | hr
        · exact ⟨raw, hr ▸ h1⟩
        · exact ih rs h2 row hr

/-- A successful construction enriches the flattened partitions into the
snapshot and starts the working view there. -/
theorem construct_eq (parts : List (List RawRow)) (r : ResaleFlats)
    (h : ResaleFlats.construct parts = some r) :
    enrich parts.flatten = some r.original_data ∧ r.df = r.original_data := by
  rw [ResaleFlats.construct, fetch_data] at h
  cases he : enrich parts.flatten with
  | none => rw [he] at h; exact absurd h (by simp)
  | some d =>
    rw [he] at h
    obtain rfl : r = ⟨d, d⟩ := (Option.some.inj h).symm
    exact ⟨rfl, rfl⟩

/-- A parsed month is a representable date. -/
theorem parseMonth_valid (s : String) (d : Date) (h : parseMonth s = some d) :
    d.Valid := by
  rw [parseMonth] at h
  split at h
  · exact absurd h (by simp)
  · split at h
    · split at h
      · rename_i hc
        obtain rfl := Option.some.inj h
        refine ⟨hc.1, hc.2.1, hc.2.2.1, hc.2.2.2, ?_, ?_⟩ <;> simp
      · exact absurd h (by simp)
    · exact absurd h (by simp)

/-- A representable date lies between the two default filter bounds. -/
theorem valid_inTimeRange (row : Row) (h : row.date.Valid) :
    inTimeRange datetimeMin datetimeMax row = true := by
  obtain ⟨h1, h2, h3, h4, h5, h6⟩ := h
  simp only [inTimeRange, Date.ble, datetimeMin, datetimeMax, Date.key, Bool.and_eq_true,
    decide_eq_true_eq]
  omega

/-- Every snapshot row of a constructed object has a representable date. -/
theorem construct_rows_valid (parts : List (List RawRow)) (r : ResaleFlats)
    (h : ResaleFlats.construct parts = some r) :
    ∀ row ∈ r.original_data, row.date.Valid := by
  intro row hrow
  obtain ⟨he, _⟩ := construct_eq parts r h
  obtain ⟨raw, hraw⟩ := enrich_forall _ _ he row hrow
  exact parseMonth_valid _ _ (ofRaw_fields raw row hraw).2

/-- Membership in first-occurrence deduplication. -/
theorem mem_uniqueFO (seen l : List String) (t : String) :
    t ∈ uniqueFO seen l ↔ t ∈ l ∧ t ∉ seen := by
  induction l generalizing seen with
  | nil => simp [uniqueFO]
  | cons x xs ih =>
    rw [uniqueFO]
    by_cases hx : x ∈ seen
    · rw [if_pos (by rw [contains_eq_decide_mem]; simpa using hx), ih]
      by_cases htx : t = x
      · subst htx; simp [hx]
      · simp [htx]
    · rw [if_neg (by rw [contains_eq_decide_mem]; simpa using hx)]
      simp only [List.mem_cons, ih]
      by_cases htx : t = x
      · subst htx; simp [hx]
      · simp [htx]

/-- First-occurrence deduplication yields pairwise-distinct values. -/
theorem nodup_uniqueFO (seen l : List String) : (uniqueFO seen l).Nodup := by
  induction l generalizing seen with
  | nil => simp [uniqueFO]
  | cons x xs ih =>
    rw [uniqueFO]
    by_cases hx : seen.contains x = true
    · rw [if_pos hx]; exact ih seen
    · rw [if_neg hx]
      refine List.nodup_cons.mpr ⟨?_, ih (x :: seen)⟩
      intro hm
      exact ((mem_uniqueFO _ _ _).mp hm).2 (List.mem_cons_self x seen)

/-- Deduplicating a nonempty constant list yields the one value. -/
theorem uniqueFO_all_eq (l : List String) (x : String) (hne : l ≠ [])
    (hall : ∀ y ∈ l, y = x) : uniqueFO [] l = [x] := by
  cases l with
  | nil => exact absurd rfl hne
  | cons a as =>
    have ha : a = x := hall a (List.mem_cons_self a as)
    subst ha
    rw [uniqueFO, if_neg (by simp)]
    have h2 : uniqueFO [a] as = [] := by
      rw [List.eq_nil_iff_forall_not_mem]
      intro y hy
      obtain ⟨hm, hs⟩ := (mem_uniqueFO _ _ _).mp hy
      exact hs (by rw [hall y (List.mem_cons_of_mem a hm)]; exact List.mem_cons_self a [])
    rw [h2]

/-- After any call sequence on a constructed object, the working view is a
subsequence of the snapshot. -/
theorem construct_df_sublist (parts : List (List RawRow)) (r : ResaleFlats)
    (ops : List Op) (h : ResaleFlats.construct parts = some r) :
    List.Sublist (applyOps r ops).df r.original_data := by
  obtain ⟨-, hdf⟩ := construct_eq parts r h
  have hg0 : GoodView r := by
    show List.Sublist r.df r.original_data
    rw [hdf]
  have hg : GoodView (applyOps r ops) := applyOps_goodView r ops hg0
  have h2 : (applyOps r ops).original_data = r.original_data := applyOps_original_data r ops
  show List.Sublist (applyOps r ops).df r.original_data
  rw [← h2]
  exact hg

/-- Constructing from the sample partitions yields the sample object. -/
theorem constructW_eq : ResaleFlats.construct partsW = some flatsW := by
  have h1 : parseMonth "2020-06" = some ⟨2020, 6, 1⟩ := by decide
  have h2 : parseMonth "2021-03" = some ⟨2021, 3, 1⟩ := by decide
  have h3 : round2 (400000 / 100 : ℚ) = 4000 := by
    rw [round2, round_eq]; norm_num
  have h4 : round2 (350000 / 70 : ℚ) = 5000 := by
    rw [round2, round_eq]; norm_num
  rw [ResaleFlats.construct, fetch_data]
  show (match enrich [rawBedok, rawTampines] with
    | none => none
    | some d => some ⟨d, d⟩) = some flatsW
  rw [enrich, enrich, enrich, Row.ofRaw, Row.ofRaw]
  rw [show rawBedok.month = "2020-06" from rfl, show rawTampines.month = "2021-03" from rfl]
  rw [h1, h2]
  simp only [rawBedok, rawTampines, flatsW, rowBedok, rowTampines, h3, h4]

/-! The claim theorems. -/

/-- C1: `filter_by_town` keeps exactly the current-view rows whose town is a
member of the given list, `filter_by_flat_type` keeps exactly those whose
flat type is a member, and either filter applied to the empty list yields
zero rows. -/
theorem filter_by_town_keeps_members (r : ResaleFlats) (towns flat_types : List String) :
    (r.filter_by_town towns).df = r.df.filter (fun row => decide (row.town ∈ towns))
  ∧ (r.filter_by_flat_type flat_types).df
      = r.df.filter (fun row => decide (row.flat_type ∈ flat_types))
  ∧ (r.filter_by_town []).df = []
  ∧ (r.filter_by_flat_type []).df = [] := by
  refine ⟨?_, ?_, ?_, ?_⟩ <;>
    simp [ResaleFlats.filter_by_town, ResaleFlats.filter_by_flat_type, contains_eq_decide_mem]

/-- C2: with both bounds given, `filter_by_time` keeps exactly the rows whose
derived date lies in the inclusive range, and an inverted range (start
chronologically after end) yields zero rows without error. -/
theorem filter_by_time_range (r : ResaleFlats) (s e : Date) :
    (r.filter_by_time (some s) (some e)).df
      = r.df.filter (fun row => decide (s.key ≤ row.date.key ∧ row.date.key ≤ e.key))
  ∧ (e.key < s.key → (r.filter_by_time (some s) (some e)).df = []) := by
  constructor
  · show r.df.filter (inTimeRange s e) = _
    congr 1
    funext row
    simp [inTimeRange, Date.ble]
  · intro h
    show r.df.filter (inTimeRange s e) = []
    refine List.filter_eq_nil_iff.mpr ?_
    intro row hrow
    simp only [inTimeRange, Date.ble, Bool.and_eq_true, decide_eq_true_eq, not_and]
    omega

/-- Witness for C2 at a concrete inverted range on the sample object. -/
theorem filter_by_time_range_witness :
    (flatsW.filter_by_time (some (Date.mk 2021 1 1)) (some (Date.mk 2020 12 31))).df = [] :=
  (filter_by_time_range flatsW (Date.mk 2021 1 1) (Date.mk 2020 12 31)).2 (by decide)

/-- C3: no call sequence changes the snapshot handle, and `reset` after any
call sequence makes the working view equal to the snapshot again. -/
theorem snapshot_immutable_reset_restores (r : ResaleFlats) (ops : List Op) :
    (applyOps r ops).original_data = r.original_data
  ∧ ((applyOps r ops).reset).df = r.original_data
  ∧ ((applyOps r ops).reset).original_data = r.original_data := by
  refine ⟨applyOps_original_data r ops, ?_, ?_⟩
  · show (applyOps r ops).original_data = r.original_data
    exact applyOps_original_data r ops
  · exact applyOps_original_data r ops

/-- C4: every snapshot row of a constructed object carries
`price_per_sqm = round(resale_price / floor_area_sqm, 2)` and the date
parsed from its own `month`; later calls never touch the snapshot and only
select among its rows, so the derived columns are never recomputed. -/
theorem derived_columns_at_construction (parts : List (List RawRow)) (r : ResaleFlats)
    (ops : List Op) (h : ResaleFlats.construct parts = some r) :
    (∀ row ∈ r.original_data,
        row.price_per_sqm = round2 (row.resale_price / row.floor_area_sqm)
        ∧ parseMonth row.month = some row.date)
  ∧ (applyOps r ops).original_data = r.original_data
  ∧ List.Sublist (applyOps r ops).df r.original_data := by
  obtain ⟨he, hdf⟩ := construct_eq parts r h
  refine ⟨?_, applyOps_original_data r ops, ?_⟩
  · intro row hrow
    obtain ⟨raw, hraw⟩ := enrich_forall _ _ he row hrow
    exact ofRaw_fields raw row hraw
  · exact construct_df_sublist parts r ops h

/-- Witness for C4 on the sample construction and one filter call. -/
theorem derived_columns_at_construction_witness :
    (applyOps flatsW [Op.town ["Bedok"]]).original_data = flatsW.original_data
  ∧ List.Sublist (applyOps flatsW [Op.town ["Bedok"]]).df flatsW.original_data :=
  (derived_columns_at_construction partsW flatsW [Op.town ["Bedok"]] constructW_eq).2

/-- C5: on any working view reached from a constructed object,
`filter_by_time` with both bounds absent keeps every row. -/
theorem filter_by_time_none_noop (parts : List (List RawRow)) (r : ResaleFlats)
    (ops : List Op) (h : ResaleFlats.construct parts = some r) :
    ((applyOps r ops).filter_by_time none none).df = (applyOps r ops).df := by
  have hvalid := construct_rows_valid parts r h
  have hsub : List.Sublist (applyOps r ops).df r.original_data :=
    construct_df_sublist parts r ops h
  show (applyOps r ops).df.filter (inTimeRange datetimeMin datetimeMax) = (applyOps r ops).df
  refine List.filter_eq_self.mpr ?_
  intro row hrow
  exact valid_inTimeRange row (hvalid row (hsub.subset hrow))

/-- Witness for C5 on the sample construction and one filter call. -/
theorem filter_by_time_none_noop_witness :
    ((applyOps flatsW [Op.flat ["4 ROOM"]]).filter_by_time none none).df
      = (applyOps flatsW [Op.flat ["4 ROOM"]]).df :=
  filter_by_time_none_noop partsW flatsW [Op.flat ["4 ROOM"]] constructW_eq

/-- C6: filtering by a nonempty town list is idempotent on row count, and
refiltering by any list covering every town still present in the filtered
view also keeps the row count. -/
theorem filter_by_town_idempotent (r : ResaleFlats) (T U : List String)
    (hT : T ≠ []) (hU : ∀ row ∈ (r.filter_by_town T).df, row.town ∈ U) :
    ((r.filter_by_town T).filter_by_town T).df.length = (r.filter_by_town T).df.length
  ∧ ((r.filter_by_town T).filter_by_town U).df.length = (r.filter_by_town T).df.length := by
  constructor
  · refine congrArg List.length (List.filter_eq_self.mpr ?_)
    intro row hrow
    exact (List.mem_filter.mp hrow).2
  · refine congrArg List.length (List.filter_eq_self.mpr ?_)
    intro row hrow
    show U.contains row.town = true
    rw [contains_eq_decide_mem, decide_eq_true_eq]
    exact hU row hrow

/-- Witness for C6 on the sample object with a concrete town list and a
concrete covering list. -/
theorem filter_by_town_idempotent_witness :
    ((flatsW.filter_by_town ["Bedok"]).filter_by_town ["Bedok"]).df.length
      = (flatsW.filter_by_town ["Bedok"]).df.length
  ∧ ((flatsW.filter_by_town ["Bedok"]).filter_by_town ["Bedok", "Tampines"]).df.length
      = (flatsW.filter_by_town ["Bedok"]).df.length :=
  filter_by_town_idempotent flatsW ["Bedok"] ["Bedok", "Tampines"] (by decide) (by decide)

/-- C7: `get_towns` lists exactly the distinct towns of the current working
view (not of the snapshot), without duplicates; hence after filtering to
Bedok, when Bedok has at least one row in the view, it returns only Bedok. -/
theorem get_towns_reflects_current_view (r : ResaleFlats) :
    (∀ t, t ∈ r.get_towns ↔ ∃ row ∈ r.df, row.town = t)
  ∧ r.get_towns.Nodup
  ∧ ((∃ row ∈ r.df, row.town = "Bedok") →
      (r.filter_by_town ["Bedok"]).get_towns = ["Bedok"]) := by
  refine ⟨?_, nodup_uniqueFO _ _, ?_⟩
  · intro t
    rw [ResaleFlats.get_towns, mem_uniqueFO]
    simp [List.mem_map]
  · intro h
    obtain ⟨row, hrow, htown⟩ := h
    rw [ResaleFlats.get_towns]
    have hm : row ∈ (r.filter_by_town ["Bedok"]).df := by
      refine List.mem_filter.mpr ⟨hrow, ?_⟩
      show (["Bedok"].contains row.town) = true
      rw [contains_eq_decide_mem, decide_eq_true_eq]
      simp [htown]
    refine uniqueFO_all_eq _ _ ?_ ?_
    · exact List.ne_nil_of_mem (List.mem_map_of_mem Row.town hm)
    · intro y hy
      obtain ⟨row', hrow', hty⟩ := List.mem_map.mp hy
      have hcon := (List.mem_filter.mp hrow').2
      rw [contains_eq_decide_mem, decide_eq_true_eq] at hcon
      simp only [List.mem_cons, List.not_mem_nil, or_false] at hcon
      rw [← hty]
      exact hcon

/-- Witness for C7 on the sample object, which has a Bedok row. -/
theorem get_towns_reflects_current_view_witness :
    (flatsW.filter_by_town ["Bedok"]).get_towns = ["Bedok"] :=
  (get_towns_reflects_current_view flatsW).2.2 (by decide)

/-- C8: starting from an unfiltered working view, town-then-time filtering
has the same row count as one pass over the snapshot with the conjoined
predicate, and the same row count as time-then-town filtering. -/
theorem filter_order_independent (r : ResaleFlats) (T : List String)
    (s e : Option Date) (h : r.df = r.original_data) :
    ((r.filter_by_town T).filter_by_time s e).df.length
      = (r.original_data.filter (fun row =>
          T.contains row.town
            && inTimeRange (s.getD datetimeMin) (e.getD datetimeMax) row)).length
  ∧ ((r.filter_by_town T).filter_by_time s e).df.length
      = ((r.filter_by_time s e).filter_by_town T).df.length := by
  constructor
  · refine congrArg List.length ?_
    show (r.df.filter (fun row => T.contains row.town)).filter
        (inTimeRange (s.getD datetimeMin) (e.getD datetimeMax)) = _
    rw [filter_filter_and, h]
  · refine congrArg List.length ?_
    show (r.df.filter (fun row => T.contains row.town)).filter
        (inTimeRange (s.getD datetimeMin) (e.getD datetimeMax))
      = (r.df.filter (inTimeRange (s.getD datetimeMin) (e.getD datetimeMax))).filter
          (fun row => T.contains row.town)
    exact filter_comm _ _ _

/-- Witness for C8 on the sample object with a concrete town list and a
concrete year-2020 window. -/
theorem filter_order_independent_witness :
    ((flatsW.filter_by_town ["Bedok", "Tampines"]).filter_by_time
        (some (Date.mk 2020 1 1)) (some (Date.mk 2020 12 31))).df.length
      = (flatsW.original_data.filter (fun row =>
          (["Bedok", "Tampines"].contains row.town)
            && inTimeRange ((some (Date.mk 2020 1 1)).getD datetimeMin)
                ((some (Date.mk 2020 12 31)).getD datetimeMax) row)).length
  ∧ ((flatsW.filter_by_town ["Bedok", "Tampines"]).filter_by_time
        (some (Date.mk 2020 1 1)) (some (Date.mk 2020 12 31))).df.length
      = ((flatsW.filter_by_time (some (Date.mk 2020 1 1))
            (some (Date.mk 2020 12 31))).filter_by_town ["Bedok", "Tampines"]).df.length :=
  filter_order_independent flatsW ["Bedok", "Tampines"]
    (some (Date.mk 2020 1 1)) (some (Date.mk 2020 12 31)) rfl

/-- C9: every filter call returns normally for every input, producing a
subsequence of the current view; inputs matching no row (unknown towns or
flat types) produce the empty view rather than an error. -/
theorem filters_total_no_error (r : ResaleFlats) (towns fts : List String)
    (s e : Option Date) :
    List.Sublist (r.filter_by_town towns).df r.df
  ∧ List.Sublist (r.filter_by_flat_type fts).df r.df
  ∧ List.Sublist (r.filter_by_time s e).df r.df
  ∧ ((∀ row ∈ r.df, row.town ∉ towns) → (r.filter_by_town towns).df = [])
  ∧ ((∀ row ∈ r.df, row.flat_type ∉ fts) → (r.filter_by_flat_type fts).df = []) := by
  refine ⟨List.filter_sublist r.df, List.filter_sublist r.df, List.filter_sublist r.df, ?_, ?_⟩
  · intro hT
    refine List.filter_eq_nil_iff.mpr ?_
    intro row hrow
    rw [contains_eq_decide_mem]
    simpa using hT row hrow
  · intro hF
    refine List.filter_eq_nil_iff.mpr ?_
    intro row hrow
    rw [contains_eq_decide_mem]
    simpa using hF row hrow

/-- Witness for C9 on the sample object with an unknown town and an unknown
flat type. -/
theorem filters_total_no_error_witness :
    (flatsW.filter_by_town ["NOWHERE"]).df = []
  ∧ (flatsW.filter_by_flat_type ["PENTHOUSE"]).df = [] :=
  ⟨(filters_total_no_error flatsW ["NOWHERE"] ["PENTHOUSE"] none none).2.2.2.1 (by decide),
   (filters_total_no_error flatsW ["NOWHERE"] ["PENTHOUSE"] none none).2.2.2.2 (by decide)⟩

/-- C10: `show(n)` renders the first `n` rows of the current view for
`n ≥ 0` (so zero rows for `n = 0`), renders all but the last `|n|` rows for
negative `n`, and leaves the working view unchanged. -/
theorem show_head_semantics (r : ResaleFlats) (n : Int) :
    (0 ≤ n → r.show' n = r.df.take n.toNat)
  ∧ r.show' 0 = []
  ∧ (n < 0 → r.show' n = r.df.take (r.df.length - (-n).toNat))
  ∧ applyOp r (Op.disp n) = r := by
  refine ⟨?_, ?_, ?_, rfl⟩
  · intro h
    rw [ResaleFlats.show', if_pos h]
  · rw [ResaleFlats.show', if_pos (le_refl (0 : Int))]
    simp
  · intro h
    rw [ResaleFlats.show', if_neg (by omega)]

/-- Witness for C10 at a nonnegative and a negative row count on the sample
object. -/
theorem show_head_semantics_witness :
    flatsW.show' 2 = flatsW.df.take (Int.toNat 2)
  ∧ flatsW.show' (-1) = flatsW.df.take (flatsW.df.length - (Int.toNat (-(-1)))) :=
  ⟨(show_head_semantics flatsW 2).1 (by decide),
   (show_head_semantics flatsW (-1)).2.2.1 (by decide)⟩
